import Mathlib

/-!
Shallow embedding of the Helio text editor (src/helio.c) and verification of
the specification's claims about it.

Bytes are modelled as `Nat`, C `int` variables as `Int`.  A `TerminalRow`
mirrors the C struct of the same name: the raw `text` bytes and the
tab-expanded `rendStr` bytes (the C `size`/`rendSize` fields always equal the
lengths of those arrays, so they are kept as derived values here).
-/

structure TerminalRow where
  text : List Nat
  rendStr : List Nat
deriving DecidableEq, Repr

def emptyRow : TerminalRow := { text := [], rendStr := [] }

/-- Number of spaces emitted for one tab in `RenderRow` when the output index
is `j`:  the C code does `rendStr[j++] = ' '` once and then keeps appending
spaces `while (j % TAB_STOP != 0)`.  Starting from `j` with `j % 8 = r`, that
is one space plus `(8 - (r+1)) % 8` more, i.e. `8 - r` in total. -/
def tabFill (j : Nat) : Nat := 8 - j % 8

/-- The copying loop of `RenderRow` (src/helio.c:545-559): non-tab bytes are
copied through; a tab emits `tabFill j` spaces (byte 32), advancing the output
index `j` accordingly. -/
def renderChars : Nat → List Nat → List Nat
  | _, [] => []
  | j, c :: cs =>
    if c = 9 then
      List.replicate (tabFill j) 32 ++ renderChars (j + tabFill j) cs
    else
      c :: renderChars (j + 1) cs

/-- `RenderRow` (src/helio.c:526-563): derives the rendered string from the
raw text, starting with output index 0. -/
def RenderRow (text : List Nat) : List Nat := renderChars 0 text

/-- `AppendRow` stores the raw text and immediately derives the rendered form
by calling `RenderRow` (src/helio.c:502-518). -/
def mkRow (text : List Nat) : TerminalRow := { text := text, rendStr := RenderRow text }

/-- Splitting a file into `getline` results: each returned line includes its
terminating newline byte (10); a final segment without a newline is returned
only if it is nonempty (`getline` returns -1 at end of file). -/
def splitLinesAux : List Nat → List Nat → List (List Nat)
  | acc, [] => if acc.isEmpty then [] else [acc.reverse]
  | acc, b :: bs =>
    if b = 10 then (acc.reverse ++ [10]) :: splitLinesAux [] bs
    else splitLinesAux (b :: acc) bs

def splitLines (file : List Nat) : List (List Nat) := splitLinesAux [] file

/-- The stripping loop of `OpenFile` (src/helio.c:484-487): trailing newline
(10) and carriage-return (13) bytes are removed from the line before it is
stored. -/
def stripTrailing (l : List Nat) : List Nat :=
  (l.reverse.dropWhile (fun b => b = 10 || b = 13)).reverse

/-- The rows created by `OpenFile` for a given file content: one `AppendRow`
per `getline` result, after stripping trailing newline/carriage-return
bytes. -/
def openFileRows (file : List Nat) : List TerminalRow :=
  (splitLines file).map (fun l => mkRow (stripTrailing l))

/-!
The editor state.  `TerminalAttr` mirrors the C struct of the same name,
keeping the fields that the navigation, editing and saving functions read or
write.  `tRowsTot` is `tRow.length`; the termios copy, status message and
file name play no role in the verified claims and are omitted.
-/

structure TerminalAttr where
  tRow : List TerminalRow
  cursorX : Int
  cursorY : Int
  numRows : Int
  numCols : Int
  rowOffset : Int
  colOffset : Int
  maxrowOffset : Int
  maxcolOffset : Int
deriving Repr

/-- `InitTerminalAttr` (src/helio.c:947-971): every state field starts at 0
with an empty row store; the window size fields are supplied by
`FetchWindowSize`. -/
def initAttr (nR nC : Int) : TerminalAttr :=
  { tRow := [], cursorX := 0, cursorY := 0, numRows := nR, numCols := nC,
    rowOffset := 0, colOffset := 0, maxrowOffset := 0, maxcolOffset := 0 }

/-- `OpenFile` (src/helio.c:467-495): append one row per `getline` result
(stripped of trailing newline/carriage-return bytes), then set
`maxrowOffset = tRowsTot - numRows` with no clamping. -/
def OpenFile (file : List Nat) (a : TerminalAttr) : TerminalAttr :=
  let rows := a.tRow ++ openFileRows file
  { a with tRow := rows, maxrowOffset := (rows.length : Int) - a.numRows }

/-- The four arrow keys handled by `MoveCursor` and `Scroll`. -/
inductive Arrow where
  | up
  | down
  | right
  | left
deriving DecidableEq, Repr

/-- The navigation keys dispatched by `ProcessKeypress`
(src/helio.c:266-287). -/
inductive NavKey where
  | up
  | down
  | right
  | left
  | pageUp
  | pageDown
  | home
  | endKey
deriving DecidableEq, Repr

/-- The rendered length of the current row as computed at the top and bottom
of `MoveCursor` (src/helio.c:327-336 and 397-405): if `cursorY < tRowsTot`
the `rendSize` of row `cursorY + rowOffset` is used, otherwise 0.  On states
reachable by navigation the accessed index is in bounds; the embedding reads
out-of-range indices as the empty row. -/
def txtLenOf (a : TerminalAttr) : Int :=
  if a.cursorY < (a.tRow.length : Int) then
    ((a.tRow.getD (a.cursorY + a.rowOffset).toNat emptyRow).rendStr.length : Int)
  else 0

/-- `Scroll` (src/helio.c:431-456). -/
def Scroll (a : TerminalAttr) : Arrow → TerminalAttr
  | .up => if a.rowOffset > 0 then { a with rowOffset := a.rowOffset - 1 } else a
  | .down => if a.rowOffset < a.maxrowOffset then { a with rowOffset := a.rowOffset + 1 } else a
  | .right => { a with colOffset := a.colOffset + 1 }
  | .left => { a with colOffset := a.colOffset - 1 }

/-- The `UP_ARROW` case of the `MoveCursor` switch (src/helio.c:340-349). -/
def moveUp (a : TerminalAttr) : TerminalAttr :=
  if a.cursorY = 0 then Scroll a .up else { a with cursorY := a.cursorY - 1 }

/-- The `DOWN_ARROW` case of the `MoveCursor` switch (src/helio.c:351-360). -/
def moveDown (a : TerminalAttr) : TerminalAttr :=
  if a.cursorY = a.numRows - 1 then Scroll a .down else { a with cursorY := a.cursorY + 1 }

/-- The tail of `MoveCursor` (src/helio.c:397-419): recompute `txtLen` for
the (possibly new) current row, set `maxcolOffset = txtLen - numCols + 1`,
clamp it to 0 — additionally clamping `cursorX` down to `txtLen` in that
case — and finally clamp `colOffset` to `maxcolOffset`. -/
def mcClamp (a : TerminalAttr) : TerminalAttr :=
  let txtLen := txtLenOf a
  let m := txtLen - a.numCols + 1
  { a with
    maxcolOffset := if m < 0 then 0 else m,
    cursorX := if m < 0 ∧ a.cursorX > txtLen then txtLen else a.cursorX,
    colOffset := if a.colOffset > (if m < 0 then 0 else m) then (if m < 0 then 0 else m)
                 else a.colOffset }

/-- The switch statement of `MoveCursor` (src/helio.c:338-395).  The
recursive calls `MoveCursor(attr, DOWN_ARROW)` and `MoveCursor(attr,
UP_ARROW)` made by the line-wrap branches execute the full function body for
an arrow key, which is `mcClamp (moveDown a)` resp. `mcClamp (moveUp a)`. -/
def mcSwitch (a : TerminalAttr) : Arrow → TerminalAttr
  | .up => moveUp a
  | .down => moveDown a
  | .right =>
    if a.cursorX < a.numCols - 1 ∧ a.cursorX < txtLenOf a then
      { a with cursorX := a.cursorX + 1 }
    else if a.colOffset < a.maxcolOffset then
      Scroll a .right
    else
      let b := mcClamp (moveDown a)
      { b with cursorX := 0, colOffset := 0 }
  | .left =>
    if a.cursorX = 0 ∧ a.colOffset > 0 then
      Scroll a .left
    else if a.cursorX = 0 then
      let b := mcClamp (moveUp a)
      { b with cursorX := a.numCols - 1, colOffset := b.maxcolOffset }
    else
      { a with cursorX := a.cursorX - 1 }

/-- `MoveCursor` (src/helio.c:325-420): the switch followed by the clamping
tail. -/
def MoveCursor (a : TerminalAttr) (ar : Arrow) : TerminalAttr :=
  mcClamp (mcSwitch a ar)

/-- The `PAGE_UP`/`PAGE_DOWN` loop of `ProcessKeypress`
(src/helio.c:273-281): `MoveCursor` applied repeatedly.  `numRows` is not
changed by `MoveCursor`, so evaluating the loop bound once is faithful. -/
def iterMove : TerminalAttr → Arrow → Nat → TerminalAttr
  | a, _, 0 => a
  | a, ar, n + 1 => iterMove (MoveCursor a ar) ar n

/-- The navigation cases of `ProcessKeypress` (src/helio.c:266-287).  The
`END_KEY` case reads `tRow[cursorY + rowOffset].rendSize` with no bounds
check; the embedding reads out-of-range indices as the empty row (the C code
has undefined behaviour there, see the claim about End-key safety). -/
def ProcessNavKey (a : TerminalAttr) : NavKey → TerminalAttr
  | .up => MoveCursor a .up
  | .down => MoveCursor a .down
  | .right => MoveCursor a .right
  | .left => MoveCursor a .left
  | .pageUp => iterMove a .up (a.numRows - 1).toNat
  | .pageDown => iterMove a .down (a.numRows - 1).toNat
  | .home => { a with cursorX := 0 }
  | .endKey =>
    { a with cursorX :=
        ((a.tRow.getD (a.cursorY + a.rowOffset).toNat emptyRow).rendStr.length : Int) }

/-- `InsertChar` (src/helio.c:787-805): an out-of-range column index is
clamped to the row size (append at the end), the bytes at and after the
insertion point shift right by one, the new byte is placed, and the rendered
string is re-derived by `RenderRow`. -/
def InsertChar (r : TerminalRow) (x : Int) (c : Nat) : TerminalRow :=
  let xi : Nat := if x < 0 ∨ x > (r.text.length : Int) then r.text.length else x.toNat
  let t := r.text.take xi ++ c :: r.text.drop xi
  { text := t, rendStr := RenderRow t }

/-- `AppendRow` (src/helio.c:502-518): a new row built from the given text is
appended at the end of the row store. -/
def AppendRow (a : TerminalAttr) (t : List Nat) : TerminalAttr :=
  { a with tRow := a.tRow ++ [mkRow t] }

/-- The in-place row update performed by `InsertCharWrapper`
(src/helio.c:774-776): `InsertChar(&tRow[cursorY + rowOffset], cursorX +
colOffset, c)`.  `List.set` leaves the store unchanged on an out-of-range
index (the C code has undefined behaviour there). -/
def insertCharAt (a : TerminalAttr) (c : Nat) : TerminalAttr :=
  let i := (a.cursorY + a.rowOffset).toNat
  let r := InsertChar (a.tRow.getD i emptyRow) (a.cursorX + a.colOffset) c
  { a with tRow := a.tRow.set i r }

/-- `InsertCharWrapper` (src/helio.c:767-779): when the absolute cursor row
equals the row count, append a fresh empty row first; then insert the byte at
index `cursorX + colOffset` of the row at `cursorY + rowOffset`, and finally
run `MoveCursor(attr, RIGHT_ARROW)`. -/
def InsertCharWrapper (a : TerminalAttr) (c : Nat) : TerminalAttr :=
  MoveCursor
    (insertCharAt
      (if a.cursorY + a.rowOffset = (a.tRow.length : Int) then AppendRow a [] else a) c)
    .right

/-- The length computed by the first loop of `WriteRowsToBuff`
(src/helio.c:818-823): row sizes plus one newline byte each. -/
def WriteRowsToBuffLen (rows : List TerminalRow) : Nat :=
  rows.foldl (fun acc r => acc + (r.text.length + 1)) 0

/-- The bytes `WriteRowsToBuff` places in the buffer it `malloc`s
(src/helio.c:826-841): each row's raw text followed by a newline byte.  This
buffer stays local to the function: its address is assigned only to the
by-value parameter `buff`, so the caller never sees it. -/
def WriteRowsToBuffLocal : List TerminalRow → List Nat
  | [] => []
  | r :: rs => r.text ++ 10 :: WriteRowsToBuffLocal rs

/-- The file content left behind by `SaveFile` (src/helio.c:845-861) when it
runs on a file currently holding `orig`.  `SaveFile` initialises
`char *buff = NULL`, calls `WriteRowsToBuff(attr, buff)` — which cannot
change the caller's `buff`, since the pointer is passed by value — then
`ftruncate`s the file to the computed length (shrinking it or zero-extending
it) and calls `write(fd, buff, length)` with `buff` still `NULL`, which
fails with `EFAULT` (return value unchecked) and transfers no bytes. -/
def SaveFileResult (orig : List Nat) (rows : List TerminalRow) : List Nat :=
  let length := WriteRowsToBuffLen rows
  orig.take length ++ List.replicate (length - orig.length) 0

/-!
The key decoder `ReadKeypress` (src/helio.c:135-245).  The C `enum key`
constants keep their values.  The decoder's result is an `Option Int`:
`some k` is a returned key value, `none` models the path on which `retSeq`
is returned without ever having been assigned (an indeterminate value).
-/

def BACKSPACE : Int := 127
def UP_ARROW : Int := 500
def DOWN_ARROW : Int := 501
def RIGHT_ARROW : Int := 502
def LEFT_ARROW : Int := 503
def PAGE_UP : Int := 504
def PAGE_DOWN : Int := 505
def HOME_KEY : Int := 506
def END_KEY : Int := 507
def DEL_KEY : Int := 508

/-- The digit-plus-tilde table (src/helio.c:169-194): byte values 49..56 are
the ASCII digits 1..8; 50 (digit 2) falls to the default. -/
def digitTildeKey (d : Nat) : Int :=
  if d = 49 then HOME_KEY
  else if d = 51 then DEL_KEY
  else if d = 52 then END_KEY
  else if d = 53 then PAGE_UP
  else if d = 54 then PAGE_DOWN
  else if d = 55 then HOME_KEY
  else if d = 56 then END_KEY
  else 27

/-- The letter table for sequences `ESC [ letter` (src/helio.c:199-221). -/
def letterKey (b : Nat) : Int :=
  if b = 65 then UP_ARROW
  else if b = 66 then DOWN_ARROW
  else if b = 67 then RIGHT_ARROW
  else if b = 68 then LEFT_ARROW
  else if b = 70 then END_KEY
  else if b = 72 then HOME_KEY
  else 27

/-- The table for sequences `ESC O letter` (src/helio.c:224-237). -/
def oKey (b : Nat) : Int :=
  if b = 70 then END_KEY else if b = 72 then HOME_KEY else 27

/-- The escape branch of `ReadKeypress` (src/helio.c:150-242), on the bytes
available after the initial escape byte.  Fewer than two bytes means the
two-byte read timed out.  On `ESC [ digit b` with `b ≠ '~'` no assignment to
`retSeq` is reached, so the function returns an indeterminate value,
modelled as `none`. -/
def ReadKeypressEsc (pending : List Nat) : Option Int :=
  match pending with
  | b0 :: b1 :: rest =>
    if b0 = 91 then
      if 48 ≤ b1 ∧ b1 ≤ 57 then
        match rest with
        | [] => some 27
        | b2 :: _ =>
          if b2 = 126 then some (digitTildeKey b1)
          else none
      else some (letterKey b1)
    else if b0 = 79 then some (oKey b1)
    else some 27
  | _ => some 27

/-- `ReadKeypress` (src/helio.c:135-245): a non-escape first byte is returned
as-is; an escape byte enters the sequence decoder with whatever bytes arrive
afterwards. -/
def ReadKeypress (c : Nat) (pending : List Nat) : Option Int :=
  if c = 27 then ReadKeypressEsc pending else some (c : Int)

/-!
The fatal-error path.  `ErrorHandler` (src/helio.c:870-877) performs exactly:
two `write`s (clear screen, cursor home), `perror(str)`, `exit(1)`.  There is
no `tcsetattr` call and no `atexit` handler anywhere in the program, so the
terminal is left in raw mode.  `AppendString` (src/helio.c:576-589) returns
silently when `realloc` yields `NULL`.
-/

structure ErrorExit where
  exitCode : Nat
  description : String
  restoredTerminal : Bool
deriving DecidableEq, Repr

/-- `ErrorHandler` (src/helio.c:870-877): clears the screen, prints the
description via `perror`, and exits with code 1.  No terminal-attribute
restore is performed on this path. -/
def ErrorHandler (s : String) : ErrorExit :=
  { exitCode := 1, description := s, restoredTerminal := false }

inductive AppendOutcome where
  | ok (buff : List Nat)
  | fatal (e : ErrorExit)
deriving DecidableEq, Repr

/-- `AppendString` (src/helio.c:576-589), with the success of `realloc` as an
explicit input: on success the bytes are appended; on allocation failure the
function just returns, leaving the buffer unchanged and raising no error. -/
def AppendString (allocOk : Bool) (abuff : List Nat) (str : List Nat) : AppendOutcome :=
  if allocOk then .ok (abuff ++ str) else .ok abuff

/-- The row index read by the `END_KEY` case of `ProcessKeypress`
(src/helio.c:285-287): `cursorY + rowOffset`, with no bounds check. -/
def endKeyAccessIndex (a : TerminalAttr) : Int := a.cursorY + a.rowOffset

/-- Whether the End-key row access is within the bounds of the row store. -/
def endKeyAccessInBounds (a : TerminalAttr) : Prop :=
  0 ≤ endKeyAccessIndex a ∧ endKeyAccessIndex a < (a.tRow.length : Int)

instance (a : TerminalAttr) : Decidable (endKeyAccessInBounds a) :=
  inferInstanceAs (Decidable (_ ∧ _))

/-!
Viewport invariants.  `NavInv` is the invariant actually maintained by the
navigation code: the cursor stays on the screen, the offsets stay
non-negative, `rowOffset` never exceeds `max maxrowOffset 0` (the stored
`maxrowOffset` itself may be negative), and `colOffset` stays within the
non-negative `maxcolOffset`.  `PreInv` is the part re-established without
the clamping tail; `mcClamp` turns it back into the full invariant.
-/

def NavInv (a : TerminalAttr) : Prop :=
  0 ≤ a.cursorY ∧ a.cursorY < a.numRows ∧
  0 ≤ a.cursorX ∧ a.cursorX < a.numCols ∧
  0 ≤ a.rowOffset ∧ a.rowOffset ≤ max a.maxrowOffset 0 ∧
  0 ≤ a.colOffset ∧ a.colOffset ≤ a.maxcolOffset ∧ 0 ≤ a.maxcolOffset

def PreInv (a : TerminalAttr) : Prop :=
  0 ≤ a.cursorY ∧ a.cursorY < a.numRows ∧
  0 ≤ a.cursorX ∧ a.cursorX < a.numCols ∧
  0 ≤ a.rowOffset ∧ a.rowOffset ≤ max a.maxrowOffset 0 ∧
  0 ≤ a.colOffset

lemma navInv_pre (a : TerminalAttr) (h : NavInv a) : PreInv a := by
  obtain ⟨h1, h2, h3, h4, h5, h6, h7, h8, h9⟩ := h
  exact ⟨h1, h2, h3, h4, h5, h6, h7⟩

lemma txtLenOf_nonneg (a : TerminalAttr) : 0 ≤ txtLenOf a := by
  unfold txtLenOf
  split
  · exact Int.natCast_nonneg _
  · exact le_refl 0

lemma mcClamp_stable (a : TerminalAttr) :
    (mcClamp a).tRow = a.tRow ∧ (mcClamp a).cursorY = a.cursorY ∧
    (mcClamp a).numRows = a.numRows ∧ (mcClamp a).numCols = a.numCols ∧
    (mcClamp a).rowOffset = a.rowOffset ∧ (mcClamp a).maxrowOffset = a.maxrowOffset :=
  ⟨rfl, rfl, rfl, rfl, rfl, rfl⟩

lemma Scroll_stable (a : TerminalAttr) (k : Arrow) :
    (Scroll a k).tRow = a.tRow ∧ (Scroll a k).cursorX = a.cursorX ∧
    (Scroll a k).cursorY = a.cursorY ∧ (Scroll a k).numRows = a.numRows ∧
    (Scroll a k).numCols = a.numCols ∧ (Scroll a k).maxrowOffset = a.maxrowOffset ∧
    (Scroll a k).maxcolOffset = a.maxcolOffset := by
  cases k with
  | up => simp only [Scroll]; split <;> exact ⟨rfl, rfl, rfl, rfl, rfl, rfl, rfl⟩
  | down => simp only [Scroll]; split <;> exact ⟨rfl, rfl, rfl, rfl, rfl, rfl, rfl⟩
  | right => exact ⟨rfl, rfl, rfl, rfl, rfl, rfl, rfl⟩
  | left => exact ⟨rfl, rfl, rfl, rfl, rfl, rfl, rfl⟩

lemma moveUp_stable (a : TerminalAttr) :
    (moveUp a).tRow = a.tRow ∧ (moveUp a).cursorX = a.cursorX ∧
    (moveUp a).numRows = a.numRows ∧ (moveUp a).numCols = a.numCols ∧
    (moveUp a).colOffset = a.colOffset ∧ (moveUp a).maxrowOffset = a.maxrowOffset ∧
    (moveUp a).maxcolOffset = a.maxcolOffset := by
  simp only [moveUp, Scroll]
  split
  · split <;> exact ⟨rfl, rfl, rfl, rfl, rfl, rfl, rfl⟩
  · exact ⟨rfl, rfl, rfl, rfl, rfl, rfl, rfl⟩

lemma moveDown_stable (a : TerminalAttr) :
    (moveDown a).tRow = a.tRow ∧ (moveDown a).cursorX = a.cursorX ∧
    (moveDown a).numRows = a.numRows ∧ (moveDown a).numCols = a.numCols ∧
    (moveDown a).colOffset = a.colOffset ∧ (moveDown a).maxrowOffset = a.maxrowOffset ∧
    (moveDown a).maxcolOffset = a.maxcolOffset := by
  simp only [moveDown, Scroll]
  split
  · split <;> exact ⟨rfl, rfl, rfl, rfl, rfl, rfl, rfl⟩
  · exact ⟨rfl, rfl, rfl, rfl, rfl, rfl, rfl⟩

lemma mcClamp_inv (a : TerminalAttr) (h : PreInv a) : NavInv (mcClamp a) := by
  obtain ⟨h1, h2, h3, h4, h5, h6, h7⟩ := h
  have ht : 0 ≤ txtLenOf a := txtLenOf_nonneg a
  unfold NavInv mcClamp
  dsimp only
  refine ⟨h1, h2, ?_, ?_, h5, h6, ?_, ?_, ?_⟩ <;> split_ifs <;> omega

lemma moveUp_pre (a : TerminalAttr) (h : PreInv a) : PreInv (moveUp a) := by
  unfold PreInv at *
  simp only [moveUp, Scroll]
  split_ifs <;> (try dsimp only) <;> omega

lemma moveDown_pre (a : TerminalAttr) (h : PreInv a) : PreInv (moveDown a) := by
  unfold PreInv at *
  simp only [moveDown, Scroll]
  split_ifs <;> (try dsimp only) <;> omega

lemma mcSwitch_pre (a : TerminalAttr) (ar : Arrow) (h : NavInv a) : PreInv (mcSwitch a ar) := by
  have hP : PreInv a := navInv_pre a h
  obtain ⟨h1, h2, h3, h4, h5, h6, h7, h8, h9⟩ := h
  cases ar with
  | up => exact moveUp_pre a hP
  | down => exact moveDown_pre a hP
  | right =>
    simp only [mcSwitch]
    split_ifs with hc1 hc2
    · unfold PreInv; try dsimp only
      omega
    · unfold PreInv; simp only [Scroll]; try dsimp only
      omega
    · have hb := mcClamp_inv (moveDown a) (moveDown_pre a hP)
      obtain ⟨b1, b2, b3, b4, b5, b6, b7, b8, b9⟩ := hb
      unfold PreInv; try dsimp only
      omega
  | left =>
    simp only [mcSwitch]
    split_ifs with hc1 hc2
    · unfold PreInv; simp only [Scroll]; try dsimp only
      omega
    · have hb := mcClamp_inv (moveUp a) (moveUp_pre a hP)
      obtain ⟨b1, b2, b3, b4, b5, b6, b7, b8, b9⟩ := hb
      have hnc : (mcClamp (moveUp a)).numCols = a.numCols := (moveUp_stable a).2.2.2.1
      unfold PreInv; try dsimp only
      omega
    · unfold PreInv; try dsimp only
      omega

lemma MoveCursor_inv (a : TerminalAttr) (ar : Arrow) (h : NavInv a) : NavInv (MoveCursor a ar) :=
  mcClamp_inv _ (mcSwitch_pre a ar h)

lemma iterMove_inv : ∀ (n : Nat) (a : TerminalAttr) (ar : Arrow),
    NavInv a → NavInv (iterMove a ar n)
  | 0, _, _, h => h
  | n + 1, a, ar, h => iterMove_inv n _ ar (MoveCursor_inv a ar h)

lemma ProcessNavKey_inv (a : TerminalAttr) (k : NavKey) (hk : k ≠ NavKey.endKey)
    (h : NavInv a) : NavInv (ProcessNavKey a k) := by
  cases k with
  | up => exact MoveCursor_inv a .up h
  | down => exact MoveCursor_inv a .down h
  | right => exact MoveCursor_inv a .right h
  | left => exact MoveCursor_inv a .left h
  | pageUp => exact iterMove_inv _ a .up h
  | pageDown => exact iterMove_inv _ a .down h
  | home =>
    obtain ⟨h1, h2, h3, h4, h5, h6, h7, h8, h9⟩ := h
    unfold NavInv
    simp only [ProcessNavKey]
    try dsimp only
    omega
  | endKey => exact absurd rfl hk

lemma navInv_foldl (ks : List NavKey) (s : TerminalAttr) (h : NavInv s)
    (hks : ∀ k ∈ ks, k ≠ NavKey.endKey) : NavInv (ks.foldl ProcessNavKey s) := by
  induction ks generalizing s with
  | nil => exact h
  | cons k ks ih =>
    simp only [List.foldl_cons]
    exact ih (ProcessNavKey s k) (ProcessNavKey_inv s k (hks k (List.mem_cons_self k ks)) h)
      (fun k2 hk2 => hks k2 (List.mem_cons_of_mem k hk2))

lemma openFile_navInv (file : List Nat) (nR nC : Int) (hR : 1 ≤ nR) (hC : 1 ≤ nC) :
    NavInv (OpenFile file (initAttr nR nC)) := by
  unfold NavInv OpenFile initAttr
  try dsimp only
  omega

lemma mcSwitch_stable (a : TerminalAttr) (ar : Arrow) :
    (mcSwitch a ar).tRow = a.tRow ∧ (mcSwitch a ar).numCols = a.numCols := by
  cases ar with
  | up => exact ⟨(moveUp_stable a).1, (moveUp_stable a).2.2.2.1⟩
  | down => exact ⟨(moveDown_stable a).1, (moveDown_stable a).2.2.2.1⟩
  | right =>
    simp only [mcSwitch]
    split_ifs
    · exact ⟨rfl, rfl⟩
    · exact ⟨rfl, rfl⟩
    · exact ⟨(moveDown_stable a).1, (moveDown_stable a).2.2.2.1⟩
  | left =>
    simp only [mcSwitch]
    split_ifs
    · exact ⟨rfl, rfl⟩
    · exact ⟨(moveUp_stable a).1, (moveUp_stable a).2.2.2.1⟩
    · exact ⟨rfl, rfl⟩

lemma MoveCursor_tRow (a : TerminalAttr) (ar : Arrow) : (MoveCursor a ar).tRow = a.tRow :=
  (mcSwitch_stable a ar).1

lemma MoveCursor_numCols (a : TerminalAttr) (ar : Arrow) :
    (MoveCursor a ar).numCols = a.numCols :=
  (mcSwitch_stable a ar).2

lemma mcClamp_maxcol (x : TerminalAttr) :
    (mcClamp x).maxcolOffset = max 0 (txtLenOf x - x.numCols + 1) := by
  unfold mcClamp
  dsimp only
  split_ifs <;> omega

lemma renderChars_length (j : Nat) (text : List Nat) :
    text.length ≤ (renderChars j text).length ∧
    (9 ∉ text → (renderChars j text).length = text.length) := by
  induction text generalizing j with
  | nil => simp [renderChars]
  | cons c cs ih =>
    by_cases hc : c = 9
    · subst hc
      simp only [renderChars, eq_self_iff_true, if_true, List.length_append,
        List.length_replicate, List.length_cons]
      have h1 : 1 ≤ tabFill j := by unfold tabFill; omega
      constructor
      · have := (ih (j + tabFill j)).1
        omega
      · intro h
        exact absurd (List.mem_cons_self 9 cs) h
    · simp only [renderChars, if_neg hc, List.length_cons]
      constructor
      · have := (ih (j + 1)).1
        omega
      · intro h
        have h9 : 9 ∉ cs := fun hm => h (List.mem_cons_of_mem c hm)
        have := (ih (j + 1)).2 h9
        omega

lemma set_getD_concat {α : Type} (l : List α) (x d : α) (g : α → α) :
    (l ++ [x]).set l.length (g ((l ++ [x]).getD l.length d)) = l ++ [g x] := by
  induction l with
  | nil => rfl
  | cons a t ih => exact congrArg (List.cons a) ih

/-- C1: the save path evaluated on the file "a\r\n".  `OpenFile` stores the
single row "a", and `WriteRowsToBuff` fills a local buffer with the intended
serialization "a\n" of length 2 — but that buffer is assigned only to the
by-value parameter, so `SaveFile` truncates the file to length 2 and then
calls `write` with its still-`NULL` pointer: the file ends up as "a\r", not
the row serialization "a\n" that the claim requires. -/
theorem saveFile_writes_null_buffer :
    SaveFileResult [97, 13, 10] (openFileRows [97, 13, 10]) = [97, 13] ∧
    WriteRowsToBuffLocal (openFileRows [97, 13, 10]) = [97, 10] ∧
    WriteRowsToBuffLen (openFileRows [97, 13, 10]) = 2 ∧
    ([97, 13] : List Nat) ≠ [97, 10] := by decide

/-- C2 (counterexample): after loading the one-line file "abcde" on a screen
with 24 rows and 4 columns, the stored vertical bound is 1 − 24 = −23, so
`0 ≤ rowOffset ≤ maxrowOffset` fails already for the empty key sequence; and
one further End keypress sets `cursorX` to the rendered row length 5, which
violates `cursorX < numCols`. -/
theorem navInvariant_counterexample :
    ¬ ((OpenFile [97, 98, 99, 100, 101, 10] (initAttr 24 4)).rowOffset ≤
        (OpenFile [97, 98, 99, 100, 101, 10] (initAttr 24 4)).maxrowOffset) ∧
    ¬ ((ProcessNavKey (OpenFile [97, 98, 99, 100, 101, 10] (initAttr 24 4))
          NavKey.endKey).cursorX <
        (OpenFile [97, 98, 99, 100, 101, 10] (initAttr 24 4)).numCols) := by decide

/-- C2 (amended): after loading a file on a screen with at least one row and
one column, every finite sequence of Up, Down, Left, Right, PageUp, PageDown
and Home events (End excluded) maintains `0 ≤ cursorY < numRows`,
`0 ≤ cursorX < numCols`, `0 ≤ rowOffset ≤ max maxrowOffset 0` (the stored
`maxrowOffset` itself may be negative) and `0 ≤ colOffset ≤ maxcolOffset`. -/
theorem navInvariant_amended (file : List Nat) (nR nC : Int) (hR : 1 ≤ nR) (hC : 1 ≤ nC)
    (ks : List NavKey) (hks : ∀ k ∈ ks, k ≠ NavKey.endKey) :
    NavInv (ks.foldl ProcessNavKey (OpenFile file (initAttr nR nC))) :=
  navInv_foldl ks _ (openFile_navInv file nR nC hR hC) hks

/-- C2 (witness): the amended invariant instantiated on the file "hi" with a
24 by 80 screen and the key sequence Down, Right, Home. -/
theorem navInvariant_amended_witness :
    NavInv ([NavKey.down, NavKey.right, NavKey.home].foldl ProcessNavKey
      (OpenFile [104, 105, 10] (initAttr 24 80))) :=
  navInvariant_amended [104, 105, 10] 24 80 (by decide) (by decide)
    [NavKey.down, NavKey.right, NavKey.home] (by decide)

/-- C3: the decode table holds for the mapped sequences, but on
`ESC [ 5 x` — a digit followed by a byte other than `~` — the decoder falls
off the assignment chain and returns the never-initialised `retSeq`
(modelled as `none`) instead of the bare escape key the claim requires. -/
theorem readKeypress_digit_no_tilde_uninitialized :
    ReadKeypress 27 [91, 53, 120] = none ∧
    ReadKeypress 27 [91, 65] = some UP_ARROW ∧
    ReadKeypress 27 [91, 51, 126] = some DEL_KEY ∧
    ReadKeypress 27 [91, 57, 126] = some 27 ∧
    ReadKeypress 27 [] = some 27 ∧
    ReadKeypress 27 [91, 53, 126] = some PAGE_UP := by decide

/-- C4 (counterexample): a failed allocation inside `AppendString` is
silently ignored — the call returns the unchanged buffer and raises no fatal
error — and `ErrorHandler` exits without restoring the terminal mode. -/
theorem fatal_handling_counterexample :
    AppendString false [] [120] = AppendOutcome.ok [] ∧
    (ErrorHandler "realloc").restoredTerminal = false :=
  ⟨rfl, rfl⟩

/-- C4 (amended): every failure routed through `ErrorHandler` exits with
code 1 after emitting the description of the failing operation, but the
terminal is not restored to its original mode; and an allocation failure in
`AppendString` is silently ignored, leaving the buffer unchanged. -/
theorem fatal_handling_amended (s : String) (b t : List Nat) :
    (ErrorHandler s).exitCode = 1 ∧ (ErrorHandler s).description = s ∧
    (ErrorHandler s).restoredTerminal = false ∧
    AppendString false b t = AppendOutcome.ok b :=
  ⟨rfl, rfl, rfl, rfl⟩

/-- C5 (counterexample): the row "1234567\t" has raw length 8 and rendered
length 8 — the tab sits at output column 7 and expands to a single space —
so equality of the lengths does not imply tab-freeness. -/
theorem renderLength_eq_with_tab :
    ¬ (((RenderRow [49, 50, 51, 52, 53, 54, 55, 9]).length =
          ([49, 50, 51, 52, 53, 54, 55, 9] : List Nat).length) ↔
        (9 : Nat) ∉ [49, 50, 51, 52, 53, 54, 55, 9]) := by decide

/-- C5 (amended): for every row, the rendered length is at least the raw
length, and a row without tab characters renders to exactly its raw
length (the converse of the claimed equivalence fails). -/
theorem renderLength_ge (text : List Nat) :
    text.length ≤ (RenderRow text).length ∧
    (9 ∉ text → (RenderRow text).length = text.length) :=
  renderChars_length 0 text

/-- C5 (witness): the amended statement instantiated on the tab-free row
"ab". -/
theorem renderLength_ge_witness :
    (RenderRow [97, 98]).length = ([97, 98] : List Nat).length :=
  (renderLength_ge [97, 98]).2 (by decide)

/-- C6 (counterexample): `InsertChar` with index 2 on the row "ab" appends
at the end, producing "abx" and not the claimed "axb". -/
theorem insertChar_index2_counterexample :
    (InsertChar (mkRow [97, 98]) 2 120).text = [97, 98, 120] ∧
    ([97, 98, 120] : List Nat) ≠ [97, 120, 98] := by decide

/-- C6 (amended): inserting 'x' via `InsertChar` with index 2 into the row
"ab" yields "abx"; run through `InsertCharWrapper` with the cursor at
column 2 the row becomes "abx" and the cursor advances to column 3; the
claimed result "axb" is what index 1 produces. -/
theorem insertChar_index2_amended :
    (InsertChar (mkRow [97, 98]) 2 120).text = [97, 98, 120] ∧
    (InsertCharWrapper { initAttr 24 80 with tRow := [mkRow [97, 98]], cursorX := 2 }
        120).cursorX = 3 ∧
    ((InsertCharWrapper { initAttr 24 80 with tRow := [mkRow [97, 98]], cursorX := 2 }
        120).tRow.map TerminalRow.text) = [[97, 98, 120]] ∧
    (InsertChar (mkRow [97, 98]) 1 120).text = [97, 120, 98] := by decide

/-- C7: tab expansion copies non-tab bytes through unchanged; a tab at
output index `j` emits `tabFill j ≥ 1` spaces, after which the output index
is a multiple of 8; and the row "a\tb" renders to "a" followed by 7 spaces
followed by "b", of total length 9. -/
theorem tabExpansion_spec :
    (∀ (j c : Nat) (cs : List Nat), c ≠ 9 →
        renderChars j (c :: cs) = c :: renderChars (j + 1) cs) ∧
    (∀ (j : Nat) (cs : List Nat),
        1 ≤ tabFill j ∧ (j + tabFill j) % 8 = 0 ∧
        renderChars j (9 :: cs) =
          List.replicate (tabFill j) 32 ++ renderChars (j + tabFill j) cs) ∧
    RenderRow [97, 9, 98] = [97, 32, 32, 32, 32, 32, 32, 32, 98] ∧
    (RenderRow [97, 9, 98]).length = 9 := by
  refine ⟨?_, ?_, by decide, by decide⟩
  · intro j c cs hc
    simp [renderChars, hc]
  · intro j cs
    exact ⟨by unfold tabFill; omega, by unfold tabFill; omega, by simp [renderChars]⟩

/-- C7 (witness): the non-tab clause instantiated at output index 0 on the
byte 'a'. -/
theorem tabExpansion_spec_witness :
    renderChars 0 [97] = 97 :: renderChars 1 [] :=
  tabExpansion_spec.1 0 97 [] (by decide)

/-- C8 (counterexample): loading the one-line file "a" on a 24-row screen
stores `maxrowOffset = 1 - 24 = -23`, not the claimed non-negative
`max 0 (rowCount - screenRows) = 0`. -/
theorem scrollBounds_counterexample :
    (OpenFile [97, 10] (initAttr 24 80)).maxrowOffset = -23 ∧
    max 0 (((OpenFile [97, 10] (initAttr 24 80)).tRow.length : Int) - 24) = 0 ∧
    (-23 : Int) ≠ 0 := by decide

/-- C8 (amended): `OpenFile` stores `maxrowOffset = rowCount - screenRows`
without clamping (negative when the file is shorter than the screen), and
after every `MoveCursor` the horizontal bound satisfies
`maxcolOffset = max 0 (txtLen - screenCols + 1)` where `txtLen` is the
rendered length of the row under the cursor as read by the clamping tail. -/
theorem scrollBounds_amended :
    (∀ (file : List Nat) (a : TerminalAttr),
        (OpenFile file a).maxrowOffset = ((OpenFile file a).tRow.length : Int) - a.numRows) ∧
    (∀ (a : TerminalAttr) (ar : Arrow),
        (MoveCursor a ar).maxcolOffset =
          max 0 (txtLenOf (MoveCursor a ar) - a.numCols + 1)) := by
  constructor
  · intro file a
    rfl
  · intro a ar
    have h1 := mcClamp_maxcol (mcSwitch a ar)
    rw [(mcSwitch_stable a ar).2] at h1
    exact h1

/-- C9: when the absolute cursor row `cursorY + rowOffset` equals the row
count, `InsertCharWrapper` appends exactly one fresh empty row at the end
and the typed byte is inserted into that row by `InsertChar` at index
`cursorX + colOffset`; when the absolute cursor row is a valid existing
index, the row count is unchanged. -/
theorem insertCharWrapper_append (a : TerminalAttr) (c : Nat) :
    (a.cursorY + a.rowOffset = (a.tRow.length : Int) →
      (InsertCharWrapper a c).tRow =
        a.tRow ++ [InsertChar (mkRow []) (a.cursorX + a.colOffset) c]) ∧
    (0 ≤ a.cursorY + a.rowOffset → a.cursorY + a.rowOffset < (a.tRow.length : Int) →
      (InsertCharWrapper a c).tRow.length = a.tRow.length) := by
  constructor
  · intro h
    unfold InsertCharWrapper
    rw [MoveCursor_tRow, if_pos h]
    unfold insertCharAt AppendRow
    dsimp only
    rw [h, Int.toNat_natCast]
    exact set_getD_concat a.tRow (mkRow []) emptyRow
      (fun r => InsertChar r (a.cursorX + a.colOffset) c)
  · intro h0 h1
    unfold InsertCharWrapper
    rw [MoveCursor_tRow, if_neg (by omega : ¬ a.cursorY + a.rowOffset = (a.tRow.length : Int))]
    unfold insertCharAt
    dsimp only
    simp only [List.length_set]

/-- C9 (witness): typing 'x' into the startup state with an empty row store
appends one row holding the inserted byte. -/
theorem insertCharWrapper_append_witness :
    (InsertCharWrapper (initAttr 24 80) 120).tRow =
      (initAttr 24 80).tRow ++
        [InsertChar (mkRow []) ((initAttr 24 80).cursorX + (initAttr 24 80).colOffset) 120] :=
  (insertCharWrapper_append (initAttr 24 80) 120).1 (by decide)

/-- C10: at startup with no file loaded the row store is empty, yet the
End-key handler reads the row at index `cursorY + rowOffset = 0`, which is
not within the bounds of the zero-row store — the unguarded access the
claim says never happens. -/
theorem endKey_oob_at_startup :
    endKeyAccessIndex (initAttr 24 80) = 0 ∧
    (initAttr 24 80).tRow.length = 0 ∧
    ¬ endKeyAccessInBounds (initAttr 24 80) := by decide
